import Mathlib

/-!
Verification development for the `multi_anonymizer` repository.

The core under verification is `DataAnonymizer` in `src/anonymizer.py`:
the value-substitution engine (`anonymize_value`), the consistency cache
(`faker_cache`, `_get_consistent_faker_value`, `_load_cache`, `_save_cache`)
and the generator-name resolution (`_is_faker_type`, `_get_faker_value`).

Python data is embedded shallowly:
* scalar values (`str` / `int` / `None`) become the inductive `Val`;
* Python `dict`s become association lists with first-match lookup and
  in-place update (matching CPython's insertion-ordered dicts);
* a raised Python exception becomes an `Except PyExc` error value;
* the external Faker library is modelled by an explicit entropy stream:
  each call to a generator method consumes one entropy value and produces
  a value determined by the method name and the entropy; the `unique`
  proxy keeps a per-method set of previously issued values and retries
  with fresh entropy (bounded, as Faker's proxy raises after a bounded
  number of retries);
* the external Jinja2 template engine is a semantic parameter
  (`JinjaSem`); a concrete instance `literalJinja` covers templates that
  contain no Jinja2 syntax, which Jinja2 renders to themselves.
-/

namespace MultiAnonymizer

/-- Python scalar values relevant to the engine: strings, integers and `None`. -/
inductive Val where
  | str (s : String)
  | int (n : Int)
  | none
deriving DecidableEq, Repr

/-- Python exceptions that the modelled code can raise. -/
inductive PyExc where
  | attributeError
  | typeError
  | valueError
  | uniquenessException
  | templateSyntaxError
  | ioError
  | jsonDecodeError
deriving DecidableEq, Repr

/-- First-match lookup in an association list (Python `d[k]` / `k in d` on keys). -/
def assocLookup {α β : Type} [DecidableEq α] : List (α × β) → α → Option β
  | [], _ => Option.none
  | (k, v) :: rest, k' => if k' = k then some v else assocLookup rest k'

/-- Python `d[k] = v`: update the binding in place if the key exists, else append
(CPython dicts keep insertion order and keep the position of updated keys). -/
def assocUpdate {α β : Type} [DecidableEq α] : List (α × β) → α → β → List (α × β)
  | [], k, v => [(k, v)]
  | (k', v') :: rest, k, v =>
    if k = k' then (k, v) :: rest else (k', v') :: assocUpdate rest k v

/-- The consistency cache `self.faker_cache`: generator type → (original value → substitute). -/
abbrev Cache : Type := List (String × List (Val × Val))

/-- Lookup of `faker_cache[t][v]` (None when either level misses). -/
def lookup2 (c : Cache) (t : String) (v : Val) : Option Val :=
  (assocLookup c t).bind fun bucket => assocLookup bucket v

/-- Mirrors `if faker_type not in self.faker_cache: self.faker_cache[faker_type] = {}`. -/
def ensureBucket (c : Cache) (t : String) : Cache :=
  if (assocLookup c t).isSome then c else c ++ [(t, [])]

/-- Mirrors `self.faker_cache[faker_type][original_value] = anonymized_value`
(the bucket for `t` is updated in place; called only after `ensureBucket`). -/
def insert2 : Cache → String → Val → Val → Cache
  | [], t, v, x => [(t, [(v, x)])]
  | (t', b) :: rest, t, v, x =>
    if t = t' then (t', assocUpdate b v x) :: rest else (t', b) :: insert2 rest t v x

/-- State of the external Faker provider: an entropy stream with a read
position, and the set of values already issued by the `unique` proxy,
tagged with the method that issued them. -/
structure FakerState where
  stream : Nat → Nat
  pos : Nat
  seen : List (String × Val)

/-- One synthetic value produced by the generator method `t` from one unit of
entropy. Model of a single call to a Faker method: deterministic in the
method name and the entropy, distinct entropies give distinct values. -/
def fakeValue (t : String) (entropy : Nat) : Val :=
  .str (t ++ "_" ++ toString entropy)

/-- A call to a plain (non-unique) Faker method: consumes one unit of entropy. -/
def plainDraw (fs : FakerState) (t : String) : Val × FakerState :=
  (fakeValue t (fs.stream fs.pos), { fs with pos := fs.pos + 1 })

/-- Retry loop of Faker's unique proxy: draw values until one is found that the
proxy has not issued before for this method, consuming fuel; Faker raises a
uniqueness exception when the bounded retries are exhausted. -/
def uniqueDrawAux (stream : Nat → Nat) (seen : List (String × Val)) (t : String) :
    Nat → Nat → Option (Val × Nat)
  | _, 0 => Option.none
  | pos, fuel + 1 =>
    let v := fakeValue t (stream pos)
    if (t, v) ∈ seen then uniqueDrawAux stream seen t (pos + 1) fuel
    else some (v, pos + 1)

/-- A call through `self.fake.unique.<t>`: returns a value the unique proxy has
never issued for `t` and records it, or raises when retries are exhausted. -/
def uniqueDraw (fs : FakerState) (t : String) : Except PyExc (Val × FakerState) :=
  match uniqueDrawAux fs.stream fs.seen t fs.pos 1000 with
  | some (v, pos') => .ok (v, { stream := fs.stream, pos := pos', seen := (t, v) :: fs.seen })
  | Option.none => .error .uniquenessException

/-- Mirrors `DataAnonymizer._get_faker_value`: dispatch to the unique proxy or
the plain method. (Only called with a recognized method name.) -/
def getFakerValue (fs : FakerState) (fakerType : String) (useUnique : Bool) :
    Except PyExc (Val × FakerState) :=
  if useUnique then uniqueDraw fs fakerType
  else .ok (plainDraw fs fakerType)

/-- Model of `self.fake.random_int(min=lo, max=hi)`: an integer drawn from the
closed interval `[lo, hi]`; raises `ValueError` when the interval is empty
(as Python's `random.randint` does). Consumes one unit of entropy. -/
def randomInt (fs : FakerState) (lo hi : Int) : Except PyExc (Val × FakerState) :=
  if lo ≤ hi then
    .ok (.int (lo + (Int.ofNat (fs.stream fs.pos)) % (hi - lo + 1)), { fs with pos := fs.pos + 1 })
  else .error .valueError

/-- Result of `DataAnonymizer._is_faker_type`: the Python method returns the
list `[is_faker_type, faker_type, use_unique]` where `faker_type` has the
`unique/` prefix stripped. -/
structure FakerTypeInfo where
  isFakerType : Bool
  fakerType : String
  useUnique : Bool
deriving DecidableEq, Repr

/-- Python `s.startswith(pre)`. -/
def pyStartsWith (s pre : String) : Bool :=
  pre.data.isPrefixOf s.data

/-- Mirrors `DataAnonymizer._is_faker_type`: strip an optional `unique/` prefix
(of length 7) and test membership in the catalog of Faker method names. -/
def isFakerTypeCheck (methods : List String) (fakerType : String) : FakerTypeInfo :=
  if pyStartsWith fakerType "unique/" then
    let t := fakerType.drop 7
    { isFakerType := methods.contains t, fakerType := t, useUnique := true }
  else
    { isFakerType := methods.contains fakerType, fakerType := fakerType, useUnique := false }

/-- Engine state of one `DataAnonymizer` instance: the catalog of Faker method
names collected by `_get_faker_methods`, the consistency cache `faker_cache`,
and the Faker provider state. -/
structure Engine where
  fakerMethods : List String
  fakerCache : Cache
  faker : FakerState

/-- Model of the catalog `_get_faker_methods` collects from the external Faker
instance by reflection: a concrete finite set of public callable method names.
Note `"number"` is not a Faker method; it is special-cased by the engine. -/
def defaultFakerMethods : List String :=
  ["address", "email", "first_name", "last_name", "name", "phone_number", "random_int"]

/-- Parameter lookup `kwargs.get(k, dflt)` coerced to an integer; a present
non-integer value makes the downstream `random_int` call raise `TypeError`. -/
def paramInt (params : List (String × Val)) (k : String) (dflt : Int) : Except PyExc Int :=
  match assocLookup params k with
  | Option.none => .ok dflt
  | some (.int n) => .ok n
  | some _ => .error .typeError

/-- Python `s.strip() == ""`: the string consists only of whitespace. -/
def pyIsBlank (s : String) : Bool :=
  s.data.all Char.isWhitespace

/-- Whitespace-only-string test of `original_value.strip() == ""` guarded by
`isinstance(original_value, str)`. -/
def isEmptySentinel : Val → Bool
  | .str s => pyIsBlank s
  | _ => false

/-- Cache-miss branch of `_get_consistent_faker_value`: the `"number"` special
case drawing from `params` `min`/`max` (defaults 0 and 100), a recognized
generator invoked through `_get_faker_value`, or the
`INVALID_FAKER_METHOD(...)` sentinel for an unrecognized name. -/
def computeFreshValue (fs : FakerState) (info : FakerTypeInfo)
    (params : List (String × Val)) : Except PyExc (Val × FakerState) :=
  if info.fakerType = "number" then
    match paramInt params "min" 0 with
    | .error ex => .error ex
    | .ok lo =>
      match paramInt params "max" 100 with
      | .error ex => .error ex
      | .ok hi => randomInt fs lo hi
  else if info.isFakerType then
    getFakerValue fs info.fakerType info.useUnique
  else
    .ok (.str ("INVALID_FAKER_METHOD(" ++ info.fakerType ++ ")"), fs)

/-- Mirrors `DataAnonymizer._get_consistent_faker_value`:
null passthrough, whitespace-string passthrough, cache lookup keyed by
(stripped generator type, original value), fresh-value computation on a miss,
and storing the computed substitute in the cache. -/
def getConsistentFakerValue (e : Engine) (origValue : Val) (fakerType : String)
    (params : List (String × Val)) : Except PyExc (Val × Engine) :=
  if origValue = .none then .ok (.none, e)
  else if isEmptySentinel origValue then .ok (.str "", e)
  else
    let info := isFakerTypeCheck e.fakerMethods fakerType
    let cache := ensureBucket e.fakerCache info.fakerType
    match lookup2 cache info.fakerType origValue with
    | some v => .ok (v, { e with fakerCache := cache })
    | Option.none =>
      match computeFreshValue e.faker info params with
      | .error ex => .error ex
      | .ok (v, fs') =>
        .ok (v, { e with fakerCache := insert2 cache info.fakerType origValue v, faker := fs' })

/-- A substitution rule as fed to `anonymize_value`: a bare string, or a
mapping; a mapping rule is relevant through its optional `"type"` entry and
its `"params"` entry, which `.get` defaults to the empty mapping. -/
inductive Rule where
  | strRule (s : String)
  | dictRule (tp : Option String) (params : List (String × Val))
deriving DecidableEq, Repr

/-- Row/element context handed to template rendering. -/
abbrev Ctx : Type := List (String × Val)

/-- Semantics of the external Jinja2 engine: a template string, the row
context and the Faker state (templates may call Faker methods through the
proxy) produce a rendered string and a possibly advanced Faker state, or a
raised exception (template syntax errors). -/
abbrev JinjaSem : Type := String → Ctx → FakerState → Except PyExc (String × FakerState)

/-- Post-processing of a rendered template in `anonymize_value`: the literal
string rendering of Python `None` is normalized back to a true null. -/
def renderResult (r : String) : Val :=
  if r = "None" then Val.none else .str r

/-- Mirrors `DataAnonymizer.anonymize_value`: a mapping rule with a `"type"`
key goes to the consistent generator path with its params; any other mapping
falls through to `_is_faker_type`, which calls `.startswith` on the mapping
and raises `AttributeError`; a bare string that resolves as a generator name
goes to the consistent generator path without params; otherwise the string is
rendered as a Jinja2 template against the context. -/
def anonymizeValue (jinja : JinjaSem) (e : Engine) (origValue : Val) (rule : Rule)
    (ctx : Ctx) : Except PyExc (Val × Engine) :=
  match rule with
  | .dictRule (some t) ps => getConsistentFakerValue e origValue t ps
  | .dictRule Option.none _ => .error .attributeError
  | .strRule s =>
    if (isFakerTypeCheck e.fakerMethods s).isFakerType then
      getConsistentFakerValue e origValue s []
    else
      match jinja s ctx e.faker with
      | .ok (r, fs') => .ok (renderResult r, { e with faker := fs' })
      | .error ex => .error ex

/-- True when the first character list occurs as a contiguous sublist of the
second. -/
def charsInfixOf : List Char → List Char → Bool
  | pat, [] => pat.isEmpty
  | pat, c :: rest => pat.isPrefixOf (c :: rest) || charsInfixOf pat rest

/-- True when a string contains the given pattern as a substring. -/
def containsSubstr (s pat : String) : Bool :=
  charsInfixOf pat.data s.data

/-- True when a string contains Jinja2 template syntax markers. -/
def hasTemplateSyntax (s : String) : Bool :=
  containsSubstr s "\x7b\x7b" || containsSubstr s "\x7b%"

/-- Jinja2 semantics restricted to templates without Jinja2 syntax markers:
such a template renders to itself (and leaves the Faker state untouched).
This oracle is only ever applied to syntax-free template strings. -/
def literalJinja : JinjaSem := fun s _ fs =>
  if hasTemplateSyntax s then .error .templateSyntaxError else .ok (s, fs)

/-- True when the rule takes the cached-generator path of `anonymize_value`:
a mapping with a `"type"` key, or a bare string that `_is_faker_type`
recognizes. -/
def isGeneratorRule (e : Engine) : Rule → Bool
  | .dictRule (some _) _ => true
  | .dictRule Option.none _ => false
  | .strRule s => (isFakerTypeCheck e.fakerMethods s).isFakerType

/-- Raw generator-type string carried by a generator rule (before the
`unique/` prefix is stripped). -/
def ruleTypeStr : Rule → Option String
  | .dictRule (some t) _ => some t
  | .dictRule Option.none _ => Option.none
  | .strRule s => some s

/-- An entropy stream that is constant. -/
def constStream (k : Nat) : Nat → Nat := fun _ => k

/-- An entropy stream enumerating the naturals. -/
def natStream : Nat → Nat := fun n => n

/-- Engine state right after `DataAnonymizer.__init__` with no cache file:
the method catalog is collected, the cache is empty, the provider is fresh. -/
def freshEngine (f : Nat → Nat) : Engine :=
  { fakerMethods := defaultFakerMethods, fakerCache := []
    faker := { stream := f, pos := 0, seen := [] } }

/-! ## Association-list and cache lemmas -/

theorem assocLookup_update_self {α β : Type} [DecidableEq α] (l : List (α × β)) (k : α) (v : β) :
    assocLookup (assocUpdate l k v) k = some v := by
  induction l with
  | nil => simp [assocUpdate, assocLookup]
  | cons kv rest ih =>
    obtain ⟨k', v'⟩ := kv
    by_cases h : k = k'
    · simp [assocUpdate, assocLookup, h]
    · simp [assocUpdate, assocLookup, h, ih]

theorem assocLookup_update_ne {α β : Type} [DecidableEq α] (l : List (α × β)) (k k' : α) (v : β)
    (h : k' ≠ k) : assocLookup (assocUpdate l k v) k' = assocLookup l k' := by
  induction l with
  | nil => simp [assocUpdate, assocLookup, h]
  | cons kv rest ih =>
    obtain ⟨ka, va⟩ := kv
    by_cases hk : k = ka
    · subst hk
      simp [assocUpdate, assocLookup, h]
    · by_cases hk' : k' = ka
      · simp [assocUpdate, assocLookup, hk, hk']
      · simp [assocUpdate, assocLookup, hk, hk', ih]

theorem assocLookup_ensureBucket (c : Cache) (t t' : String) :
    lookup2 (ensureBucket c t) t' v = lookup2 c t' v := by
  unfold ensureBucket
  by_cases h : (assocLookup c t).isSome
  · simp [h]
  · simp only [h, if_false, Bool.false_eq_true]
    unfold lookup2
    induction c with
    | nil =>
      simp only [assocLookup] at h ⊢
      by_cases ht : t' = t <;> simp [assocLookup, ht]
    | cons kv rest ih =>
      obtain ⟨ka, va⟩ := kv
      by_cases ht : t' = ka
      · simp [assocLookup, ht]
      · simp only [assocLookup, List.cons_append, ht, if_false]
        apply ih
        simp only [assocLookup] at h
        by_cases hta : t = ka
        · simp [assocLookup, hta] at h
        · simpa [assocLookup, hta] using h

theorem lookup2_insert2_self (c : Cache) (t : String) (v x : Val) :
    lookup2 (insert2 c t v x) t v = some x := by
  induction c with
  | nil => simp [insert2, lookup2, assocLookup, assocLookup_update_self]
  | cons kv rest ih =>
    obtain ⟨ka, ba⟩ := kv
    by_cases h : t = ka
    · simp [insert2, lookup2, assocLookup, h, assocLookup_update_self]
    · have h' : ¬t = ka := h
      simp only [insert2, h', if_false]
      unfold lookup2 at ih ⊢
      simp [assocLookup, fun hh : t = ka => h' hh, ih]

theorem lookup2_insert2_ne (c : Cache) (t t' : String) (v v' x : Val)
    (h : t' ≠ t ∨ v' ≠ v) : lookup2 (insert2 c t v x) t' v' = lookup2 c t' v' := by
  induction c with
  | nil =>
    rcases h with h | h
    · simp [insert2, lookup2, assocLookup, h]
    · by_cases ht : t' = t
      · simp [insert2, lookup2, assocLookup, ht, assocUpdate, h]
      · simp [insert2, lookup2, assocLookup, ht]
  | cons kv rest ih =>
    obtain ⟨ka, ba⟩ := kv
    by_cases hta : t = ka
    · subst hta
      rcases h with h | h
      · simp [insert2, lookup2, assocLookup, h]
      · by_cases ht : t' = t
        · simp [insert2, lookup2, assocLookup, ht, assocLookup_update_ne _ _ _ _ h]
        · simp [insert2, lookup2, assocLookup, ht]
    · simp only [insert2, hta, if_false]
      unfold lookup2 at ih ⊢
      by_cases ht : t' = ka
      · simp [assocLookup, ht]
      · simp [assocLookup, ht, ih]

theorem assocLookup_ensureBucket_isSome (c : Cache) (t : String) :
    (assocLookup (ensureBucket c t) t).isSome := by
  unfold ensureBucket
  by_cases h : (assocLookup c t).isSome
  · simp [h]
  · simp only [h, if_false, Bool.false_eq_true]
    induction c with
    | nil => simp [assocLookup]
    | cons kv rest ih =>
      obtain ⟨ka, va⟩ := kv
      by_cases ht : t = ka
      · simp [assocLookup, ht] at h
      · simp only [assocLookup, List.cons_append, ht, if_false] at h ⊢
        exact ih h

theorem assocLookup_insert2_isSome (c : Cache) (t : String) (v x : Val) :
    (assocLookup (insert2 c t v x) t).isSome := by
  induction c with
  | nil => simp [insert2, assocLookup]
  | cons kv rest ih =>
    obtain ⟨ka, ba⟩ := kv
    by_cases h : t = ka
    · simp [insert2, assocLookup, h]
    · simp [insert2, assocLookup, h, ih]

theorem ensureBucket_of_isSome (c : Cache) (t : String) (h : (assocLookup c t).isSome) :
    ensureBucket c t = c := by
  simp [ensureBucket, h]

/-! ## Behaviour of `_get_consistent_faker_value` -/

theorem getConsistent_none (e : Engine) (t : String) (ps : List (String × Val)) :
    getConsistentFakerValue e .none t ps = .ok (.none, e) := by
  simp [getConsistentFakerValue]

theorem getConsistent_sentinel (e : Engine) (v : Val) (t : String) (ps : List (String × Val))
    (h : isEmptySentinel v = true) :
    getConsistentFakerValue e v t ps = .ok (.str "", e) := by
  cases v with
  | str s => simp [getConsistentFakerValue, h]
  | int n => simp [isEmptySentinel] at h
  | none => simp [isEmptySentinel] at h

theorem getConsistent_post (e : Engine) (v : Val) (t : String) (ps : List (String × Val))
    (out : Val) (e' : Engine)
    (hv : ¬v = Val.none) (hw : ¬isEmptySentinel v = true)
    (h : getConsistentFakerValue e v t ps = .ok (out, e')) :
    e'.fakerMethods = e.fakerMethods ∧
    lookup2 e'.fakerCache (isFakerTypeCheck e.fakerMethods t).fakerType v = some out ∧
    (assocLookup e'.fakerCache (isFakerTypeCheck e.fakerMethods t).fakerType).isSome = true := by
  unfold getConsistentFakerValue at h
  rw [if_neg hv, if_neg hw] at h
  simp only [] at h
  split at h
  case h_1 w heq =>
    simp only [Except.ok.injEq, Prod.mk.injEq] at h
    obtain ⟨hout, he⟩ := h
    subst hout
    subst he
    refine ⟨rfl, ?_, ?_⟩
    · exact heq
    · exact assocLookup_ensureBucket_isSome _ _
  case h_2 heq =>
    split at h
    case h_1 ex heq2 => exact absurd h (by simp)
    case h_2 w fs' heq2 =>
      simp only [Except.ok.injEq, Prod.mk.injEq] at h
      obtain ⟨hout, he⟩ := h
      subst hout
      subst he
      refine ⟨rfl, ?_, ?_⟩
      · exact lookup2_insert2_self _ _ _ _
      · exact assocLookup_insert2_isSome _ _ _ _

theorem getConsistent_hit (e : Engine) (v : Val) (t : String) (ps : List (String × Val)) (out : Val)
    (hv : ¬v = Val.none) (hw : ¬isEmptySentinel v = true)
    (hbucket : (assocLookup e.fakerCache (isFakerTypeCheck e.fakerMethods t).fakerType).isSome = true)
    (hhit : lookup2 e.fakerCache (isFakerTypeCheck e.fakerMethods t).fakerType v = some out) :
    getConsistentFakerValue e v t ps = .ok (out, e) := by
  unfold getConsistentFakerValue
  rw [if_neg hv, if_neg hw]
  simp only []
  rw [ensureBucket_of_isSome _ _ hbucket]
  simp [hhit]

theorem getConsistent_second (e : Engine) (v : Val) (t : String) (ps ps' : List (String × Val))
    (out : Val) (e' : Engine)
    (h : getConsistentFakerValue e v t ps = .ok (out, e')) :
    getConsistentFakerValue e' v t ps' = .ok (out, e') ∧ e'.fakerMethods = e.fakerMethods := by
  by_cases hv : v = Val.none
  · subst hv
    rw [getConsistent_none] at h
    simp only [Except.ok.injEq, Prod.mk.injEq] at h
    obtain ⟨hout, he⟩ := h
    subst hout
    subst he
    exact ⟨getConsistent_none _ _ _, rfl⟩
  · by_cases hw : isEmptySentinel v = true
    · rw [getConsistent_sentinel _ _ _ _ hw] at h
      simp only [Except.ok.injEq, Prod.mk.injEq] at h
      obtain ⟨hout, he⟩ := h
      subst hout
      subst he
      exact ⟨getConsistent_sentinel _ _ _ _ hw, rfl⟩
    · obtain ⟨hm, hl, hb⟩ := getConsistent_post e v t ps out e' hv hw h
      refine ⟨?_, hm⟩
      apply getConsistent_hit e' v t ps' out hv hw
      · rw [hm]
        exact hb
      · rw [hm]
        exact hl

/-! ## Claim theorems -/

/-- Claim C1: for every generator type and original value, all calls to
`anonymize_value` with a generator rule of that type on that value within one
engine instance's lifetime return the identical substitute — once a first call
succeeded with result `out` and post-state `e'`, every later call with the
same rule on the same value returns exactly `out` and leaves the engine at
`e'`, independent of the template oracle and the row context. -/
theorem anonymize_value_generator_repeat (jinja₁ jinja₂ : JinjaSem) (e : Engine) (v : Val)
    (r : Rule) (ctx₁ ctx₂ : Ctx) (out : Val) (e' : Engine)
    (hr : isGeneratorRule e r = true)
    (h : anonymizeValue jinja₁ e v r ctx₁ = .ok (out, e')) :
    anonymizeValue jinja₂ e' v r ctx₂ = .ok (out, e') := by
  cases r with
  | dictRule tp ps =>
    cases tp with
    | some t =>
      simp only [anonymizeValue] at h ⊢
      exact (getConsistent_second e v t ps ps out e' h).1
    | none => simp [isGeneratorRule] at hr
  | strRule s =>
    simp only [isGeneratorRule] at hr
    simp only [anonymizeValue, hr, if_true] at h
    obtain ⟨h2, hm⟩ := getConsistent_second e v s [] [] out e' h
    simp only [anonymizeValue, hm, hr, if_true]
    exact h2

/-- Engine state after anonymizing "Alice" with generator "first_name" on a
fresh engine over the enumerating entropy stream. -/
def engineAlice : Engine :=
  { fakerMethods := defaultFakerMethods
    fakerCache := [("first_name", [(Val.str "Alice", Val.str "first_name_0")])]
    faker := { stream := natStream, pos := 1, seen := [] } }

/-- Witness for C1 at a concrete input: after a first call anonymized "Alice"
to "first_name_0", the second call returns the same substitute and state. -/
theorem anonymize_value_generator_repeat_witness :
    anonymizeValue literalJinja engineAlice (Val.str "Alice") (.strRule "first_name") []
      = .ok (Val.str "first_name_0", engineAlice) :=
  anonymize_value_generator_repeat literalJinja literalJinja (freshEngine natStream)
    (Val.str "Alice") (.strRule "first_name") [] [] (Val.str "first_name_0") engineAlice
    (by decide) (by rfl)

/-- Claim C2 counterexample: a whitespace-only original value is not returned
unchanged by a generator rule (it is replaced by the empty string), and a
null original value fed to a template rule is not returned as null (the
template is rendered regardless). -/
theorem sentinel_passthrough_counterexample :
    ((anonymizeValue literalJinja (freshEngine natStream) (Val.str " ")
        (.dictRule (some "email") []) []).map Prod.fst = .ok (Val.str "") ∧
      Val.str "" ≠ Val.str " ") ∧
    ((anonymizeValue literalJinja (freshEngine natStream) Val.none
        (.strRule "redacted") []).map Prod.fst = .ok (Val.str "redacted") ∧
      Val.str "redacted" ≠ Val.none) :=
  ⟨⟨by rfl, by decide⟩, ⟨by rfl, by decide⟩⟩

/-- Claim C2 (amended): for generator rules — a mapping with a `"type"` key or
a bare string resolving to a known generator — a null original value returns
null and a whitespace-only string returns the empty string, in both cases
without touching the cache or the provider (the engine state is unchanged);
template rules perform no sentinel check: the template is rendered against
the context whatever the original value is. -/
theorem sentinel_passthrough_amended (jinja : JinjaSem) (e : Engine) (r : Rule) (ctx : Ctx)
    (hr : isGeneratorRule e r = true) :
    anonymizeValue jinja e Val.none r ctx = .ok (Val.none, e) ∧
    (∀ s : String, pyIsBlank s = true → anonymizeValue jinja e (.str s) r ctx = .ok (.str "", e)) ∧
    (∀ u : String, (isFakerTypeCheck e.fakerMethods u).isFakerType = false →
      ∀ v : Val, anonymizeValue jinja e v (.strRule u) ctx =
        match jinja u ctx e.faker with
        | .ok (rendered, fs') => .ok (renderResult rendered, { e with faker := fs' })
        | .error ex => .error ex) := by
  refine ⟨?_, ?_, ?_⟩
  · cases r with
    | dictRule tp ps =>
      cases tp with
      | some t => simp only [anonymizeValue]; exact getConsistent_none e t ps
      | none => simp [isGeneratorRule] at hr
    | strRule s =>
      simp only [isGeneratorRule] at hr
      simp only [anonymizeValue, hr, if_true]
      exact getConsistent_none e s []
  · intro s hs
    have hsent : isEmptySentinel (Val.str s) = true := by simp [isEmptySentinel, hs]
    cases r with
    | dictRule tp ps =>
      cases tp with
      | some t => simp only [anonymizeValue]; exact getConsistent_sentinel e _ t ps hsent
      | none => simp [isGeneratorRule] at hr
    | strRule u =>
      simp only [isGeneratorRule] at hr
      simp only [anonymizeValue, hr, if_true]
      exact getConsistent_sentinel e _ u [] hsent
  · intro u hu v
    simp [anonymizeValue, hu]

/-- Witness for C2 (amended) at concrete inputs: null and a two-space string
fed to the generator rule for "email" pass through on a fresh engine. -/
theorem sentinel_passthrough_amended_witness :
    anonymizeValue literalJinja (freshEngine natStream) Val.none (.dictRule (some "email") []) []
      = .ok (Val.none, freshEngine natStream) ∧
    anonymizeValue literalJinja (freshEngine natStream) (Val.str "  ") (.dictRule (some "email") []) []
      = .ok (Val.str "", freshEngine natStream) :=
  ⟨(sentinel_passthrough_amended literalJinja (freshEngine natStream)
      (.dictRule (some "email") []) [] (by decide)).1,
   (sentinel_passthrough_amended literalJinja (freshEngine natStream)
      (.dictRule (some "email") []) [] (by decide)).2.1 "  " (by decide)⟩

/-- Generator type named by a generator rule, after the `unique/` prefix is
stripped (the key under which the rule's substitutes are cached). -/
def strippedRuleType (e : Engine) : Rule → String
  | .dictRule (some t) _ => (isFakerTypeCheck e.fakerMethods t).fakerType
  | .dictRule Option.none _ => ""
  | .strRule s => (isFakerTypeCheck e.fakerMethods s).fakerType

theorem getConsistent_other_entries (e : Engine) (v : Val) (t : String)
    (ps : List (String × Val)) (out : Val) (e' : Engine) (t' : String) (v' : Val)
    (h : getConsistentFakerValue e v t ps = .ok (out, e'))
    (hne : t' ≠ (isFakerTypeCheck e.fakerMethods t).fakerType ∨ v' ≠ v) :
    lookup2 e'.fakerCache t' v' = lookup2 e.fakerCache t' v' := by
  by_cases hv : v = Val.none
  · subst hv
    rw [getConsistent_none] at h
    simp only [Except.ok.injEq, Prod.mk.injEq] at h
    rw [← h.2]
  · by_cases hw : isEmptySentinel v = true
    · rw [getConsistent_sentinel _ _ _ _ hw] at h
      simp only [Except.ok.injEq, Prod.mk.injEq] at h
      rw [← h.2]
    · unfold getConsistentFakerValue at h
      rw [if_neg hv, if_neg hw] at h
      simp only [] at h
      split at h
      next w heq =>
        simp only [Except.ok.injEq, Prod.mk.injEq] at h
        rw [← h.2]
        exact assocLookup_ensureBucket _ _ _
      next heq =>
        split at h
        next ex heq2 => exact absurd h (by simp)
        next w fs' heq2 =>
          simp only [Except.ok.injEq, Prod.mk.injEq] at h
          rw [← h.2]
          rw [lookup2_insert2_ne _ _ _ _ _ _ hne]
          exact assocLookup_ensureBucket _ _ _

/-- Engine state after anonymizing the integer 42 with generator "email" on a
fresh engine over the enumerating entropy stream. -/
def engine42 : Engine :=
  { fakerMethods := defaultFakerMethods
    fakerCache := [("email", [(Val.int 42, Val.str "email_0")])]
    faker := { stream := natStream, pos := 1, seen := [] } }

/-- Claim C3 counterexample: within one engine lifetime the cache is keyed by
the original value itself, not by its string representation: the number 42
and the string "42", anonymized under the same generator type, receive
different substitutes. -/
theorem cache_key_string_repr_counterexample :
    anonymizeValue literalJinja (freshEngine natStream) (Val.int 42)
      (.dictRule (some "email") []) [] = .ok (Val.str "email_0", engine42) ∧
    (anonymizeValue literalJinja engine42 (Val.str "42")
      (.dictRule (some "email") []) []).map Prod.fst = .ok (Val.str "email_1") ∧
    Val.str "email_1" ≠ Val.str "email_0" :=
  ⟨by rfl, by rfl, by decide⟩

/-- Claim C3 (amended): the cache is keyed by the pair (stripped generator
type, original Python value): a call with a generator rule leaves every cache
entry for any other (type, value) pair untouched. In particular substitutes
for the same value under two different generator types are cached
independently — and two different Python values such as the number 42 and
the string "42" are cached independently even though they have the same
string representation (they share an entry only after a JSON cache
round-trip stringifies the keys). -/
theorem cache_partitioned_by_type_and_value (jinja : JinjaSem) (e : Engine) (v : Val)
    (r : Rule) (ctx : Ctx) (out : Val) (e' : Engine) (t' : String) (v' : Val)
    (hr : isGeneratorRule e r = true)
    (h : anonymizeValue jinja e v r ctx = .ok (out, e'))
    (hne : t' ≠ strippedRuleType e r ∨ v' ≠ v) :
    lookup2 e'.fakerCache t' v' = lookup2 e.fakerCache t' v' := by
  cases r with
  | dictRule tp ps =>
    cases tp with
    | some t =>
      simp only [anonymizeValue] at h
      exact getConsistent_other_entries e v t ps out e' t' v' h hne
    | none => simp [isGeneratorRule] at hr
  | strRule s =>
    simp only [isGeneratorRule] at hr
    simp only [anonymizeValue, hr, if_true] at h
    exact getConsistent_other_entries e v s [] out e' t' v' h hne

/-- Witness for C3 (amended): anonymizing the integer 42 under "email" leaves
the cache entry for the string "42" under "email" (and for 42 under
"first_name") unchanged. -/
theorem cache_partitioned_witness :
    lookup2 engine42.fakerCache "email" (Val.str "42")
      = lookup2 (freshEngine natStream).fakerCache "email" (Val.str "42") ∧
    lookup2 engine42.fakerCache "first_name" (Val.int 42)
      = lookup2 (freshEngine natStream).fakerCache "first_name" (Val.int 42) :=
  ⟨cache_partitioned_by_type_and_value literalJinja (freshEngine natStream) (Val.int 42)
      (.dictRule (some "email") []) [] (Val.str "email_0") engine42 "email" (Val.str "42")
      (by decide) (by rfl) (Or.inr (by decide)),
   cache_partitioned_by_type_and_value literalJinja (freshEngine natStream) (Val.int 42)
      (.dictRule (some "email") []) [] (Val.str "email_0") engine42 "first_name" (Val.int 42)
      (by decide) (by rfl) (Or.inl (by decide))⟩

/-- Claim C10: `anonymize_value` is only total over rules that are strings or
mappings containing a `"type"` key: a mapping rule without a `"type"` key is
passed to the generator-name check, which calls a string method on it, and
the call raises `AttributeError` for every original value (even null) instead
of returning a substitute or a sentinel. -/
theorem dict_rule_without_type_raises (jinja : JinjaSem) (e : Engine) (v : Val)
    (ps : List (String × Val)) (ctx : Ctx) :
    anonymizeValue jinja e v (.dictRule Option.none ps) ctx = .error PyExc.attributeError := by
  simp [anonymizeValue]

/-- Claim C8: for a bare-string rule, `anonymize_value` first attempts to
resolve the string as a generator name; if the lookup succeeds the result is
exactly that of the cached generator substitution path, and only if the
lookup fails is the string handed to the template engine and rendered
against the context. -/
theorem bare_string_resolution_order (jinja : JinjaSem) (e : Engine) (v : Val) (s : String)
    (ctx : Ctx) :
    ((isFakerTypeCheck e.fakerMethods s).isFakerType = true →
      anonymizeValue jinja e v (.strRule s) ctx = getConsistentFakerValue e v s []) ∧
    ((isFakerTypeCheck e.fakerMethods s).isFakerType = false →
      anonymizeValue jinja e v (.strRule s) ctx =
        match jinja s ctx e.faker with
        | .ok (rendered, fs') => .ok (renderResult rendered, { e with faker := fs' })
        | .error ex => .error ex) := by
  constructor
  · intro h
    simp [anonymizeValue, h]
  · intro h
    simp [anonymizeValue, h]

/-- Witness for C8 at concrete inputs: "email" resolves as a generator and
takes the cached-generator path; "greeting" does not resolve and is rendered
as a (literal) template. -/
theorem bare_string_resolution_order_witness :
    anonymizeValue literalJinja (freshEngine natStream) (Val.str "x") (.strRule "email") []
      = getConsistentFakerValue (freshEngine natStream) (Val.str "x") "email" [] ∧
    anonymizeValue literalJinja (freshEngine natStream) (Val.str "x") (.strRule "greeting") []
      = .ok (Val.str "greeting", freshEngine natStream) :=
  ⟨(bare_string_resolution_order literalJinja (freshEngine natStream) (Val.str "x") "email" []).1
      (by decide),
   ((bare_string_resolution_order literalJinja (freshEngine natStream) (Val.str "x") "greeting" []).2
      (by decide)).trans (by rfl)⟩

theorem isFakerTypeCheck_number (m : List String) :
    isFakerTypeCheck m "number"
      = { isFakerType := m.contains "number", fakerType := "number", useUnique := false } := by
  have h : pyStartsWith "number" "unique/" = false := by decide
  simp [isFakerTypeCheck, h]

/-- Engine state after anonymizing "a" with a number rule (min 0, max 100) on
a fresh engine over the constant-57 entropy stream. -/
def engineNumber : Engine :=
  { fakerMethods := defaultFakerMethods
    fakerCache := [("number", [(Val.str "a", Val.int 57)])]
    faker := { stream := constStream 57, pos := 1, seen := [] } }

/-- Claim C6 counterexample: a value already cached under the "number" type is
returned as-is regardless of the current rule's bounds: after "a" was
anonymized to 57 under min 0 / max 100, a rule with min 5 / max 5 on the
same value returns 57, not 5. -/
theorem number_range_counterexample :
    anonymizeValue literalJinja (freshEngine (constStream 57)) (Val.str "a")
      (.dictRule (some "number") [("min", Val.int 0), ("max", Val.int 100)]) []
      = .ok (Val.int 57, engineNumber) ∧
    (anonymizeValue literalJinja engineNumber (Val.str "a")
      (.dictRule (some "number") [("min", Val.int 5), ("max", Val.int 5)]) []).map Prod.fst
      = .ok (Val.int 57) ∧
    Val.int 57 ≠ Val.int 5 :=
  ⟨by rfl, by rfl, by decide⟩

/-- Claim C6 (amended): for a non-null, non-whitespace original value *on its
first encounter under the "number" type* (no cached entry for it), a rule of
type "number" with effective parameters min = lo and max = hi (defaults 0
and 100 when absent) returns an integer in the closed interval [lo, hi] — in
particular min 5 / max 5 yields exactly 5. A value already cached under
"number" is returned unchanged, regardless of the current rule's bounds. -/
theorem number_rule_range (jinja : JinjaSem) (e : Engine) (v : Val) (ps : List (String × Val))
    (ctx : Ctx) (lo hi : Int)
    (hv : ¬v = Val.none) (hw : ¬isEmptySentinel v = true)
    (hfresh : lookup2 e.fakerCache "number" v = Option.none)
    (hlo : paramInt ps "min" 0 = .ok lo) (hhi : paramInt ps "max" 100 = .ok hi)
    (hle : lo ≤ hi) :
    ∃ (k : Int) (e' : Engine),
      anonymizeValue jinja e v (.dictRule (some "number") ps) ctx = .ok (Val.int k, e') ∧
      lo ≤ k ∧ k ≤ hi := by
  simp only [anonymizeValue]
  unfold getConsistentFakerValue
  rw [if_neg hv, if_neg hw]
  simp only [isFakerTypeCheck_number]
  rw [show lookup2 (ensureBucket e.fakerCache "number") "number" v = Option.none from
    (assocLookup_ensureBucket _ _ _).trans hfresh]
  unfold computeFreshValue
  simp only [if_pos rfl]
  rw [hlo, hhi]
  unfold randomInt
  simp only [if_true]
  rw [if_pos hle]
  have hpos : (0 : Int) < hi - lo + 1 := by omega
  have h1 : 0 ≤ (Int.ofNat (e.faker.stream e.faker.pos)) % (hi - lo + 1) :=
    Int.emod_nonneg _ (by omega)
  have h2 : (Int.ofNat (e.faker.stream e.faker.pos)) % (hi - lo + 1) < hi - lo + 1 :=
    Int.emod_lt_of_pos _ hpos
  exact ⟨lo + (Int.ofNat (e.faker.stream e.faker.pos)) % (hi - lo + 1), _, rfl,
    by omega, by omega⟩

/-- Witness for C6 (amended): a fresh value "b" under min 5 / max 5 yields an
integer that is exactly 5. -/
theorem number_rule_range_witness :
    ∃ (k : Int) (e' : Engine),
      anonymizeValue literalJinja (freshEngine (constStream 57)) (Val.str "b")
        (.dictRule (some "number") [("min", Val.int 5), ("max", Val.int 5)]) []
        = .ok (Val.int k, e') ∧ 5 ≤ k ∧ k ≤ 5 :=
  number_rule_range literalJinja (freshEngine (constStream 57)) (Val.str "b")
    [("min", Val.int 5), ("max", Val.int 5)] [] 5 5
    (by decide) (by decide) (by rfl) (by rfl) (by rfl) (by decide)

theorem computeFreshValue_nonunique_ok (fs : FakerState) (t : String) (b : Bool) :
    ∃ w fs', computeFreshValue fs { isFakerType := b, fakerType := t, useUnique := false } []
      = .ok (w, fs') := by
  unfold computeFreshValue
  dsimp only
  by_cases hnum : t = "number"
  · rw [if_pos hnum]
    simp only [paramInt, assocLookup]
    unfold randomInt
    rw [if_pos (by omega : (0 : Int) ≤ 100)]
    exact ⟨_, _, rfl⟩
  · rw [if_neg hnum]
    cases b with
    | true =>
      rw [if_pos rfl]
      unfold getFakerValue
      rw [if_neg (by simp)]
      exact ⟨_, _, rfl⟩
    | false =>
      rw [if_neg (by simp)]
      exact ⟨_, _, rfl⟩

theorem anonymize_plain_known_ok (jinja : JinjaSem) (e : Engine) (v : Val) (tname : String)
    (ctx : Ctx)
    (hmem : e.fakerMethods.contains tname = true)
    (hpre : pyStartsWith tname "unique/" = false) :
    ∃ out e', anonymizeValue jinja e v (.strRule tname) ctx = .ok (out, e') := by
  have hmem' : tname ∈ e.fakerMethods := by simpa using hmem
  have hinfo : isFakerTypeCheck e.fakerMethods tname
      = { isFakerType := true, fakerType := tname, useUnique := false } := by
    simp [isFakerTypeCheck, hpre, hmem']
  simp only [anonymizeValue, hinfo]
  simp only [if_true]
  unfold getConsistentFakerValue
  by_cases hv : v = Val.none
  · rw [if_pos hv]
    exact ⟨_, _, rfl⟩
  · rw [if_neg hv]
    by_cases hw : isEmptySentinel v = true
    · rw [if_pos hw]
      exact ⟨_, _, rfl⟩
    · rw [if_neg hw]
      simp only [hinfo]
      cases hcase : lookup2 (ensureBucket e.fakerCache tname) tname v with
      | some w =>
        exact ⟨_, _, rfl⟩
      | none =>
        obtain ⟨w, fs', hcf⟩ := computeFreshValue_nonunique_ok e.faker tname true
        rw [hcf]
        exact ⟨_, _, rfl⟩

/-- Claim C5: for every non-null, non-whitespace original value not yet cached
under an unrecognized generator name, `anonymize_value` does not raise and
returns a string containing that name: a mapping rule yields the marked
sentinel `INVALID_FAKER_METHOD(<name>)`, and a bare-string rule (without
template syntax, and not the literal "None") is echoed verbatim by the
template fallback; moreover any call with a valid non-unique generator rule
in the same run still succeeds. -/
theorem unknown_generator_contained (jinja : JinjaSem) (e : Engine) (v : Val) (g : String)
    (ps : List (String × Val)) (ctx : Ctx)
    (hv : ¬v = Val.none) (hw : ¬isEmptySentinel v = true)
    (hunknown : (isFakerTypeCheck e.fakerMethods g).isFakerType = false)
    (hnum : (isFakerTypeCheck e.fakerMethods g).fakerType ≠ "number")
    (hfresh : lookup2 e.fakerCache (isFakerTypeCheck e.fakerMethods g).fakerType v
      = Option.none) :
    (∃ e₁, anonymizeValue jinja e v (.dictRule (some g) ps) ctx
        = .ok (.str ("INVALID_FAKER_METHOD("
            ++ (isFakerTypeCheck e.fakerMethods g).fakerType ++ ")"), e₁)) ∧
    (hasTemplateSyntax g = false → g ≠ "None" →
      anonymizeValue literalJinja e v (.strRule g) ctx = .ok (.str g, e)) ∧
    (∀ (e₁ : Engine) (v₁ : Val) (tname : String) (ctx₁ : Ctx),
      e₁.fakerMethods.contains tname = true → pyStartsWith tname "unique/" = false →
      ∃ out e₂, anonymizeValue jinja e₁ v₁ (.strRule tname) ctx₁ = .ok (out, e₂)) := by
  refine ⟨?_, ?_, ?_⟩
  · simp only [anonymizeValue]
    unfold getConsistentFakerValue
    rw [if_neg hv, if_neg hw]
    simp only []
    rw [show lookup2 (ensureBucket e.fakerCache (isFakerTypeCheck e.fakerMethods g).fakerType)
        (isFakerTypeCheck e.fakerMethods g).fakerType v = Option.none from
      (assocLookup_ensureBucket _ _ _).trans hfresh]
    unfold computeFreshValue
    rw [if_neg hnum, if_neg (by simp [hunknown])]
    exact ⟨_, rfl⟩
  · intro hsyn hnone
    simp only [anonymizeValue, hunknown, Bool.false_eq_true, if_false]
    simp only [literalJinja, hsyn, Bool.false_eq_true, if_false]
    simp only [renderResult, hnone, if_false]
  · intro e₁ v₁ tname ctx₁ hmem hpre
    exact anonymize_plain_known_ok jinja e₁ v₁ tname ctx₁ hmem hpre

/-- Witness for C5 at concrete inputs: "not_a_real_generator" as mapping rule
yields the marked sentinel; as bare string it is echoed; and anonymizing
another value with the valid rule "email" in the same run succeeds. -/
theorem unknown_generator_contained_witness :
    (∃ e₁, anonymizeValue literalJinja (freshEngine natStream) (Val.str "x")
        (.dictRule (some "not_a_real_generator") []) []
        = .ok (.str "INVALID_FAKER_METHOD(not_a_real_generator)", e₁)) ∧
    anonymizeValue literalJinja (freshEngine natStream) (Val.str "x")
        (.strRule "not_a_real_generator") []
      = .ok (.str "not_a_real_generator", freshEngine natStream) ∧
    (∃ out e₂, anonymizeValue literalJinja (freshEngine natStream) (Val.str "y")
        (.strRule "email") [] = .ok (out, e₂)) :=
  have h := unknown_generator_contained literalJinja (freshEngine natStream) (Val.str "x")
    "not_a_real_generator" [] [] (by decide) (by decide) (by decide) (by decide) (by rfl)
  ⟨h.1, h.2.1 (by decide) (by decide), h.2.2 (freshEngine natStream) (Val.str "y") "email" []
    (by decide) (by decide)⟩

theorem uniqueDrawAux_not_seen (stream : Nat → Nat) (seen : List (String × Val)) (t : String)
    (fuel pos : Nat) (v : Val) (pos' : Nat)
    (h : uniqueDrawAux stream seen t pos fuel = some (v, pos')) :
    (t, v) ∉ seen := by
  induction fuel generalizing pos with
  | zero => simp [uniqueDrawAux] at h
  | succ n ih =>
    unfold uniqueDrawAux at h
    simp only [] at h
    by_cases hmem : (t, fakeValue t (stream pos)) ∈ seen
    · rw [if_pos hmem] at h
      exact ih _ h
    · rw [if_neg hmem] at h
      simp only [Option.some.injEq, Prod.mk.injEq] at h
      obtain ⟨hv, _⟩ := h
      subst hv
      exact hmem

theorem uniqueDraw_spec (fs : FakerState) (t : String) (v : Val) (fs' : FakerState)
    (h : uniqueDraw fs t = .ok (v, fs')) :
    (t, v) ∉ fs.seen ∧ fs'.seen = (t, v) :: fs.seen := by
  unfold uniqueDraw at h
  split at h
  next w pos' haux =>
    simp only [Except.ok.injEq, Prod.mk.injEq] at h
    obtain ⟨hv, hfs⟩ := h
    subst hv
    subst hfs
    exact ⟨uniqueDrawAux_not_seen _ _ _ _ _ _ _ haux, rfl⟩
  next haux => exact absurd h (by simp)

theorem anonymize_unique_miss (jinja : JinjaSem) (e : Engine) (v : Val) (g t : String)
    (ctx : Ctx) (out : Val) (e' : Engine)
    (hv : ¬v = Val.none) (hw : ¬isEmptySentinel v = true)
    (hinfo : isFakerTypeCheck e.fakerMethods g
      = { isFakerType := true, fakerType := t, useUnique := true })
    (hnum : t ≠ "number")
    (hmiss : lookup2 e.fakerCache t v = Option.none)
    (h : anonymizeValue jinja e v (.strRule g) ctx = .ok (out, e')) :
    (t, out) ∉ e.faker.seen ∧ e'.faker.seen = (t, out) :: e.faker.seen ∧
    e'.fakerMethods = e.fakerMethods := by
  simp only [anonymizeValue, hinfo, if_true] at h
  unfold getConsistentFakerValue at h
  rw [if_neg hv, if_neg hw] at h
  simp only [hinfo] at h
  rw [show lookup2 (ensureBucket e.fakerCache t) t v = Option.none from
    (assocLookup_ensureBucket _ _ _).trans hmiss] at h
  unfold computeFreshValue at h
  rw [if_neg hnum] at h
  simp only [if_true] at h
  unfold getFakerValue at h
  simp only [if_true] at h
  split at h
  next ex hdraw => exact absurd h (by simp)
  next w fs' hdraw =>
    simp only [Except.ok.injEq, Prod.mk.injEq] at h
    obtain ⟨hout, he⟩ := h
    subst hout
    subst he
    obtain ⟨hnotseen, hseen⟩ := uniqueDraw_spec e.faker t _ fs' hdraw
    exact ⟨hnotseen, hseen, rfl⟩

/-- Engine state after anonymizing "a" with the plain generator "email" on a
fresh engine over the constant-7 entropy stream. -/
def engineU7 : Engine :=
  { fakerMethods := defaultFakerMethods
    fakerCache := [("email", [(Val.str "a", Val.str "email_7")])]
    faker := { stream := constStream 7, pos := 1, seen := [] } }

/-- Claim C7 counterexample: after a plain "email" rule anonymized "a" to
"email_7", a `unique/email` call on "a" returns the cached "email_7" without
consulting the uniqueness registry, and a `unique/email` call on the distinct
value "b" again returns "email_7" — two `unique/email` calls across distinct
original values repeat a previously issued substitute. -/
theorem unique_rule_repeat_counterexample :
    anonymizeValue literalJinja (freshEngine (constStream 7)) (Val.str "a")
      (.strRule "email") [] = .ok (Val.str "email_7", engineU7) ∧
    anonymizeValue literalJinja engineU7 (Val.str "a")
      (.strRule "unique/email") [] = .ok (Val.str "email_7", engineU7) ∧
    (anonymizeValue literalJinja engineU7 (Val.str "b")
      (.strRule "unique/email") []).map Prod.fst = .ok (Val.str "email_7") ∧
    Val.str "a" ≠ Val.str "b" :=
  ⟨by rfl, by rfl, by rfl, by decide⟩

/-- Claim C7 (amended): a `unique/T` call that misses the consistency cache
draws a substitute the unique proxy has never issued for T and registers it,
so two successive cache-missing `unique/T` calls (in particular calls on
distinct original values in a run where T is used only through `unique/T`)
return distinct substitutes. However a `unique/T` call whose original value
is already cached under T (for example by an earlier plain-T rule) returns
the cached substitute without a uniqueness check and may repeat an earlier
output. -/
theorem unique_rule_no_repeat (jinja₁ jinja₂ : JinjaSem) (e : Engine) (v₁ v₂ : Val)
    (g₁ g₂ t : String) (ctx₁ ctx₂ : Ctx) (out₁ out₂ : Val) (e₁ e₂ : Engine)
    (hv₁ : ¬v₁ = Val.none) (hw₁ : ¬isEmptySentinel v₁ = true)
    (hv₂ : ¬v₂ = Val.none) (hw₂ : ¬isEmptySentinel v₂ = true)
    (hi₁ : isFakerTypeCheck e.fakerMethods g₁
      = { isFakerType := true, fakerType := t, useUnique := true })
    (hi₂ : isFakerTypeCheck e₁.fakerMethods g₂
      = { isFakerType := true, fakerType := t, useUnique := true })
    (hnum : t ≠ "number")
    (hm₁ : lookup2 e.fakerCache t v₁ = Option.none)
    (hm₂ : lookup2 e₁.fakerCache t v₂ = Option.none)
    (h₁ : anonymizeValue jinja₁ e v₁ (.strRule g₁) ctx₁ = .ok (out₁, e₁))
    (h₂ : anonymizeValue jinja₂ e₁ v₂ (.strRule g₂) ctx₂ = .ok (out₂, e₂)) :
    out₂ ≠ out₁ ∧ (t, out₁) ∈ e₁.faker.seen ∧ (t, out₂) ∉ e₁.faker.seen := by
  obtain ⟨hn₁, hs₁, _⟩ := anonymize_unique_miss jinja₁ e v₁ g₁ t ctx₁ out₁ e₁
    hv₁ hw₁ hi₁ hnum hm₁ h₁
  obtain ⟨hn₂, hs₂, _⟩ := anonymize_unique_miss jinja₂ e₁ v₂ g₂ t ctx₂ out₂ e₂
    hv₂ hw₂ hi₂ hnum hm₂ h₂
  have hin : (t, out₁) ∈ e₁.faker.seen := by
    rw [hs₁]
    exact List.mem_cons_self _ _
  refine ⟨?_, hin, hn₂⟩
  intro heq
  rw [heq] at hn₂
  exact hn₂ hin

/-- Engine state after anonymizing "a" with `unique/email` on a fresh engine
over the enumerating entropy stream. -/
def engineUniqueA : Engine :=
  { fakerMethods := defaultFakerMethods
    fakerCache := [("email", [(Val.str "a", Val.str "email_0")])]
    faker := { stream := natStream, pos := 1, seen := [("email", Val.str "email_0")] } }

/-- Witness for C7 (amended) at concrete inputs: two cache-missing
`unique/email` calls on the distinct values "a" and "b" return the distinct
substitutes "email_0" and "email_1". -/
theorem unique_rule_no_repeat_witness :
    Val.str "email_1" ≠ Val.str "email_0" ∧
    ("email", Val.str "email_0") ∈ engineUniqueA.faker.seen ∧
    ("email", Val.str "email_1") ∉ engineUniqueA.faker.seen :=
  unique_rule_no_repeat literalJinja literalJinja (freshEngine natStream)
    (Val.str "a") (Val.str "b") "unique/email" "unique/email" "email" [] []
    (Val.str "email_0") (Val.str "email_1") engineUniqueA
    { fakerMethods := defaultFakerMethods
      fakerCache := [("email", [(Val.str "a", Val.str "email_0"), (Val.str "b", Val.str "email_1")])]
      faker := { stream := natStream, pos := 2
                 seen := [("email", Val.str "email_1"), ("email", Val.str "email_0")] } }
    (by decide) (by decide) (by decide) (by decide) (by decide) (by decide) (by decide)
    (by rfl) (by rfl) (by rfl) (by rfl)

/-! ## Cache persistence (`_save_cache` / `_load_cache`) -/

/-- Key of a JSON object as written by `json.dump`: object keys are always
strings, so an integer key is stringified and a None key becomes "null". -/
def jsonKeyStr : Val → String
  | .str s => s
  | .int n => toString n
  | .none => "null"

/-- One cache bucket after a `json.dump` / `json.load` round trip: keys are
written in insertion order as strings, and `json.load` builds the dict by
successive assignment, so a later duplicate string key overwrites an
earlier one. -/
def saveLoadBucket (b : List (Val × Val)) : List (Val × Val) :=
  b.foldl (fun acc kv => assocUpdate acc (Val.str (jsonKeyStr kv.1)) kv.2) []

/-- The in-memory cache a fresh engine obtains by loading what a previous
engine saved: the two-level mapping with every original-value key
stringified per bucket (top-level keys are already strings). -/
def saveLoadCache (c : Cache) : Cache :=
  c.map fun tb => (tb.1, saveLoadBucket tb.2)

/-- All keys of a bucket are Python strings. -/
def allStrKeys (b : List (Val × Val)) : Bool :=
  b.all fun kv => match kv.1 with | .str _ => true | _ => false

/-- The keys of a bucket are pairwise distinct. -/
def keysNodup : List (Val × Val) → Bool
  | [] => true
  | (k, _) :: rest => !(rest.any fun kv => kv.1 == k) && keysNodup rest

/-- Every bucket of the cache has string-only, pairwise-distinct keys. -/
def cacheWF (c : Cache) : Bool :=
  c.all fun tb => allStrKeys tb.2 && keysNodup tb.2

theorem assocUpdate_of_lookup_none {α β : Type} [DecidableEq α] (l : List (α × β)) (k : α)
    (v : β) (h : assocLookup l k = Option.none) : assocUpdate l k v = l ++ [(k, v)] := by
  induction l with
  | nil => simp [assocUpdate]
  | cons kv rest ih =>
    obtain ⟨ka, va⟩ := kv
    simp only [assocLookup] at h
    by_cases hk : k = ka
    · simp [hk] at h
    · simp only [assocUpdate, hk, if_false, List.cons_append, List.cons.injEq, true_and]
      exact ih (by simpa [hk] using h)

theorem assocLookup_append_single_none {α β : Type} [DecidableEq α] (l : List (α × β))
    (k k' : α) (v : β) (hl : assocLookup l k' = Option.none) (hk : ¬k' = k) :
    assocLookup (l ++ [(k, v)]) k' = Option.none := by
  induction l with
  | nil => simp [assocLookup, hk]
  | cons kv rest ih =>
    obtain ⟨ka, va⟩ := kv
    simp only [assocLookup] at hl
    by_cases hka : k' = ka
    · simp [hka] at hl
    · simp only [List.cons_append, assocLookup, hka, if_false]
      exact ih (by simpa [hka] using hl)

theorem saveLoadBucket_foldl (b : List (Val × Val)) :
    ∀ acc : List (Val × Val), allStrKeys b = true → keysNodup b = true →
    (∀ p ∈ b, assocLookup acc p.1 = Option.none) →
    b.foldl (fun acc kv => assocUpdate acc (Val.str (jsonKeyStr kv.1)) kv.2) acc = acc ++ b := by
  induction b with
  | nil =>
    intro acc _ _ _
    simp
  | cons kv rest ih =>
    intro acc hstr hnodup hfresh
    obtain ⟨k, v⟩ := kv
    simp only [allStrKeys, List.all_cons, Bool.and_eq_true] at hstr
    obtain ⟨hks, hstr'⟩ := hstr
    cases k with
    | int n => simp at hks
    | none => simp at hks
    | str s =>
      simp only [keysNodup, Bool.and_eq_true, Bool.not_eq_eq_eq_not, Bool.not_true] at hnodup
      obtain ⟨hhead, hnodup'⟩ := hnodup
      have hdistinct : ∀ p ∈ rest, ¬p.1 = Val.str s := by
        intro p hp heq
        have := List.any_eq_false.mp hhead p hp
        simp [heq] at this
      simp only [List.foldl_cons]
      have hkey : Val.str (jsonKeyStr (Val.str s)) = Val.str s := rfl
      rw [hkey, assocUpdate_of_lookup_none acc (Val.str s) v
        (hfresh (Val.str s, v) (List.mem_cons_self _ _))]
      rw [ih (acc ++ [(Val.str s, v)]) hstr' hnodup' ?_]
      · simp
      · intro p hp
        exact assocLookup_append_single_none acc (Val.str s) p.1 v
          (hfresh p (List.mem_cons_of_mem _ hp)) (hdistinct p hp)

theorem saveLoadBucket_id (b : List (Val × Val)) (hstr : allStrKeys b = true)
    (hnodup : keysNodup b = true) : saveLoadBucket b = b := by
  unfold saveLoadBucket
  rw [saveLoadBucket_foldl b [] hstr hnodup (by intro p _; rfl)]
  simp

theorem saveLoadCache_id (c : Cache) : cacheWF c = true → saveLoadCache c = c := by
  induction c with
  | nil => intro _; rfl
  | cons tb rest ih =>
    intro h
    obtain ⟨t, b⟩ := tb
    simp only [cacheWF, List.all_cons, Bool.and_eq_true] at h
    obtain ⟨⟨hstr, hnodup⟩, hrest⟩ := h
    simp only [saveLoadCache, List.map_cons]
    rw [saveLoadBucket_id b hstr hnodup]
    have := ih hrest
    unfold saveLoadCache at this
    rw [this]

/-- Claim C4 counterexample: an integer-valued original breaks the cache round
trip: the integer 42 was anonymized to "email_0" and saved, but JSON
serialization stringifies the key to "42", so a fresh engine loading the
saved cache misses on the integer 42 and invokes the generator again,
producing a different substitute. -/
theorem cache_round_trip_counterexample :
    anonymizeValue literalJinja (freshEngine natStream) (Val.int 42)
      (.dictRule (some "email") []) [] = .ok (Val.str "email_0", engine42) ∧
    saveLoadCache engine42.fakerCache = [("email", [(Val.str "42", Val.str "email_0")])] ∧
    (anonymizeValue literalJinja
      { fakerMethods := defaultFakerMethods
        fakerCache := [("email", [(Val.str "42", Val.str "email_0")])]
        faker := { stream := constStream 9, pos := 0, seen := [] } }
      (Val.int 42) (.dictRule (some "email") []) []).map Prod.fst = .ok (Val.str "email_9") ∧
    Val.str "email_9" ≠ Val.str "email_0" :=
  ⟨by rfl, by rfl, by rfl, by decide⟩

/-- Claim C4 (amended): the cache round trip holds for string-valued
originals: for every generator rule and non-whitespace string value
anonymized by an engine whose resulting cache has string-only distinct keys,
a fresh engine that loads the saved cache (with any provider state) returns
the previously-saved substitute and leaves its provider state untouched —
the generator is not invoked. Integer-valued originals are excluded: JSON
stringifies their keys, so the reloaded cache misses on them (see the
counterexample). -/
theorem cache_round_trip (jinja₁ jinja₂ : JinjaSem) (e : Engine) (s : String) (r : Rule)
    (ctx₁ ctx₂ : Ctx) (out : Val) (e₁ : Engine) (fs : FakerState)
    (hr : isGeneratorRule e r = true)
    (hs : ¬pyIsBlank s = true)
    (h : anonymizeValue jinja₁ e (Val.str s) r ctx₁ = .ok (out, e₁))
    (hwf : cacheWF e₁.fakerCache = true) :
    anonymizeValue jinja₂
      { fakerMethods := e.fakerMethods, fakerCache := saveLoadCache e₁.fakerCache, faker := fs }
      (Val.str s) r ctx₂
      = .ok (out,
        { fakerMethods := e.fakerMethods, fakerCache := saveLoadCache e₁.fakerCache,
          faker := fs }) := by
  rw [saveLoadCache_id _ hwf]
  have hv : ¬(Val.str s) = Val.none := by simp
  have hw : ¬isEmptySentinel (Val.str s) = true := by simpa [isEmptySentinel] using hs
  cases r with
  | dictRule tp ps =>
    cases tp with
    | some t =>
      simp only [anonymizeValue] at h ⊢
      obtain ⟨hm, hl, hb⟩ := getConsistent_post e (Val.str s) t ps out e₁ hv hw h
      exact getConsistent_hit _ (Val.str s) t ps out hv hw hb hl
    | none => simp [isGeneratorRule] at hr
  | strRule u =>
    simp only [isGeneratorRule] at hr
    simp only [anonymizeValue, hr, if_true] at h
    obtain ⟨hm, hl, hb⟩ := getConsistent_post e (Val.str s) u [] out e₁ hv hw h
    simp only [anonymizeValue, hr, if_true]
    exact getConsistent_hit _ (Val.str s) u [] out hv hw hb hl

/-- Witness for C4 (amended) at concrete inputs: "Alice" anonymized to
"first_name_0" and saved; a fresh engine loading the saved cache (over a
different entropy stream) returns "first_name_0" with its provider state
untouched. -/
theorem cache_round_trip_witness :
    anonymizeValue literalJinja
      { fakerMethods := defaultFakerMethods
        fakerCache := saveLoadCache engineAlice.fakerCache
        faker := { stream := constStream 9, pos := 0, seen := [] } }
      (Val.str "Alice") (.strRule "first_name") []
      = .ok (Val.str "first_name_0",
        { fakerMethods := defaultFakerMethods
          fakerCache := saveLoadCache engineAlice.fakerCache
          faker := { stream := constStream 9, pos := 0, seen := [] } }) :=
  cache_round_trip literalJinja literalJinja (freshEngine natStream) "Alice"
    (.strRule "first_name") [] [] (Val.str "first_name_0") engineAlice
    { stream := constStream 9, pos := 0, seen := [] }
    (by decide) (by decide) (by rfl) (by rfl)

/-- Body of the `try` block in `_load_cache`: open and read the configured
file (which may raise an I/O error) and parse it as JSON (which may raise a
decode error). `parseJson` is the external `json.load`, abstracted as a
parser returning the parsed mapping or no result. -/
def loadCacheBody (readResult : Except PyExc String)
    (parseJson : String → Option Cache) : Except PyExc Cache :=
  match readResult with
  | .error ex => .error ex
  | .ok text =>
    match parseJson text with
    | some c => .ok c
    | Option.none => .error .jsonDecodeError

/-- Mirrors `_load_cache`: runs only when a cache file is configured and the
file exists; the whole body is wrapped in `try/except`, so an exception is
caught, a warning is printed and the cache is set empty. Returns the
resulting cache and whether a warning was printed; the caught exception
never propagates. -/
def loadCache (cacheFile : Option String) (fileExists : Bool)
    (readResult : Except PyExc String) (parseJson : String → Option Cache) : Cache × Bool :=
  match cacheFile with
  | Option.none => ([], false)
  | some _ =>
    if fileExists then
      match loadCacheBody readResult parseJson with
      | .ok c => (c, false)
      | .error _ => ([], true)
    else ([], false)

/-- Mirrors `_save_cache`: runs only when a cache file is configured; the
write is wrapped in `try/except`, so a failing sink is caught and a warning
printed. Returns what was persisted (nothing when the write failed) and
whether a warning was printed; the in-memory cache is never modified and the
caught exception never propagates. -/
def saveCache (cacheFile : Option String) (writeOk : Bool) (c : Cache) :
    Option Cache × Bool :=
  match cacheFile with
  | Option.none => (Option.none, false)
  | some _ => if writeOk then (some c, false) else (Option.none, true)

/-- Claim C9: cache-persistence I/O failures never propagate: for every
corrupt or unreadable source the load returns (it does not raise), logs a
warning and leaves the engine with an empty cache; for every failing sink
the save returns, logs a warning and persists nothing; and an engine whose
cache degraded to empty still anonymizes correctly — every valid plain
generator rule succeeds on it. -/
theorem cache_io_failure_contained (cf : String) (rr : Except PyExc String)
    (pj : String → Option Cache) (c : Cache) (ex : PyExc)
    (hbody : loadCacheBody rr pj = .error ex) :
    loadCache (some cf) true rr pj = ([], true) ∧
    saveCache (some cf) false c = (Option.none, true) ∧
    (∀ (jinja : JinjaSem) (f : Nat → Nat) (v : Val) (tname : String) (ctx : Ctx),
      defaultFakerMethods.contains tname = true → pyStartsWith tname "unique/" = false →
      ∃ out e', anonymizeValue jinja
        { fakerMethods := defaultFakerMethods
          fakerCache := (loadCache (some cf) true rr pj).1
          faker := { stream := f, pos := 0, seen := [] } } v (.strRule tname) ctx
        = .ok (out, e')) := by
  refine ⟨?_, rfl, ?_⟩
  · simp [loadCache, hbody]
  · intro jinja f v tname ctx hmem hpre
    exact anonymize_plain_known_ok jinja _ v tname ctx hmem hpre

/-- Witness for C9 at concrete inputs: an unreadable source yields the empty
cache plus a warning, a failing sink persists nothing plus a warning, and
the degraded engine still anonymizes "x" with the valid rule "email". -/
theorem cache_io_failure_contained_witness :
    loadCache (some "cache.json") true (.error .ioError) (fun _ => Option.none)
      = ([], true) ∧
    saveCache (some "cache.json") false [("email", [(Val.str "x", Val.str "email_0")])]
      = (Option.none, true) ∧
    (∃ out e', anonymizeValue literalJinja
      { fakerMethods := defaultFakerMethods
        fakerCache := (loadCache (some "cache.json") true (.error .ioError)
          (fun _ => Option.none)).1
        faker := { stream := natStream, pos := 0, seen := [] } }
      (Val.str "x") (.strRule "email") [] = .ok (out, e')) :=
  have h := cache_io_failure_contained "cache.json" (.error .ioError) (fun _ => Option.none)
    [("email", [(Val.str "x", Val.str "email_0")])] .ioError (by rfl)
  ⟨h.1, h.2.1, h.2.2 literalJinja natStream (Val.str "x") "email" [] (by decide) (by decide)⟩

end MultiAnonymizer
